import Mathlib

/-!
A shallow embedding of the Gemini Gallery client: the media-item state
container of the main application component, its file-ingestion, save,
update and folder operations, the filter predicate, the modal's action
handler, and the response handling of the Gemini image-editing service.
JavaScript strings become `String`, `File` objects become a record of the
fields the code reads (`name` and the MIME `type`), `Partial<MediaItem>`
update objects become a record of `Option` fields, timestamps become `Nat`,
and the nondeterministic parts (uuid generation, object-URL creation, the
network call's outcome) are passed in as parameters.
-/

namespace GeminiGallery

/-- Media kind, from `type MediaType = 'image' | 'video'`. -/
inductive MediaType where
  | image
  | video
deriving DecidableEq, Repr

/-- The fields of a DOM `File` object that the code reads: its `name` and its
MIME `type` string. -/
structure JsFile where
  name : String
  type : String
deriving DecidableEq, Repr

/-- The `MediaItem` interface of `types.ts`. Optional fields are `Option`s. -/
structure MediaItem where
  id : String
  type : MediaType
  url : String
  file : JsFile
  thumbnailUrl : Option String := none
  name : String
  timestamp : Nat
  aiDescription : Option String := none
  isGenerated : Option Bool := none
  folder : String
deriving DecidableEq, Repr

/-- The `AppStatus` enum of `types.ts`. -/
inductive AppStatus where
  | IDLE
  | LOADING
  | PROCESSING
  | ERROR
  | SUCCESS
deriving DecidableEq, Repr

/-- The type filter state: `'all' | 'image' | 'video'`. -/
inductive TypeFilter where
  | all
  | image
  | video
deriving DecidableEq, Repr

/-- The state hooks of the `App` component, gathered into one record. -/
structure AppState where
  mediaItems : List MediaItem
  selectedItem : Option MediaItem
  dragActive : Bool
  folders : List String
  currentFolder : String
  searchQuery : String
  typeFilter : TypeFilter
  isUploading : Bool
  newFolderInput : String
  showNewFolderInput : Bool
deriving DecidableEq, Repr

/-- `const DEFAULT_FOLDER = "Genel"`. -/
def DEFAULT_FOLDER : String := "Genel"

/-- The initial state of the `App` component's hooks. -/
def initState : AppState where
  mediaItems := []
  selectedItem := none
  dragActive := false
  folders := [DEFAULT_FOLDER, "Favoriler", "İş", "Tatil"]
  currentFolder := DEFAULT_FOLDER
  searchQuery := ""
  typeFilter := .all
  isUploading := false
  newFolderInput := ""
  showNewFolderInput := false

/-- `startsWithList h n` is whether `n` is an initial segment of `h`. -/
def startsWithList : List Char → List Char → Bool
  | _, [] => true
  | [], _ :: _ => false
  | a :: as, b :: bs => a = b && startsWithList as bs

/-- `includesList h n` is whether `n` occurs contiguously in `h`, the
behaviour of JavaScript `String.prototype.includes`. -/
def includesList : List Char → List Char → Bool
  | [], n => n.isEmpty
  | h :: t, n => startsWithList (h :: t) n || includesList t n

/-- JavaScript `s.includes(pat)` on the underlying character lists. -/
def jsIncludes (s pat : String) : Bool :=
  includesList s.data pat.data

/-- JavaScript `s.startsWith(pre)` on the underlying character lists. -/
def jsStartsWith (s pre : String) : Bool :=
  startsWithList s.data pre.data

/-- JavaScript `s.trim()`: leading and trailing whitespace stripped, on the
underlying character list. -/
def jsTrim (s : String) : String :=
  ⟨((s.data.dropWhile Char.isWhitespace).reverse.dropWhile
      Char.isWhitespace).reverse⟩

/-- JavaScript `s.toLowerCase()`, character by character. -/
def jsToLower (s : String) : String :=
  ⟨s.data.map Char.toLower⟩

/-- `getFileType`: image for a MIME type starting with `image/`, video for
`video/`, otherwise null. -/
def getFileType (file : JsFile) : Option MediaType :=
  if jsStartsWith file.type "image/" then some .image
  else if jsStartsWith file.type "video/" then some .video
  else none

/-- The loop body of `handleFiles`: each file with a recognised type becomes
one new `MediaItem` in the current folder; other files are skipped. The
`ids` and `urls` streams supply the `uuidv4()` and `URL.createObjectURL`
results for the successive accepted files, `now` the `Date.now()` value. -/
def uploadOne (ids urls : Nat → String) (now : Nat) (folder : String)
    (f : JsFile) (ih : Nat → List MediaItem) (k : Nat) : List MediaItem :=
  match getFileType f with
  | some t =>
    { id := ids k, type := t, url := urls k, file := f, name := f.name,
      timestamp := now, folder := folder } :: ih (k + 1)
  | none => ih k

/-- The items built from a list of files, starting at position `k` of the
uuid and object-URL streams. -/
def uploadItemsFrom (ids urls : Nat → String) (now : Nat) (folder : String)
    (files : List JsFile) : Nat → List MediaItem :=
  files.foldr (uploadOne ids urls now folder) fun _ => []

/-- The new items of one `handleFiles` call: the `k`-th accepted file uses
the `k`-th uuid and object URL. -/
def uploadItems (ids urls : Nat → String) (now : Nat) (folder : String)
    (files : List JsFile) : List MediaItem :=
  uploadItemsFrom ids urls now folder files 0

/-- `handleFiles`: builds the new items and prepends them to `mediaItems`
(`setMediaItems(prev => [...newItems, ...prev])`); the upload spinner ends
false. -/
def handleFiles (ids urls : Nat → String) (now : Nat) (files : List JsFile)
    (st : AppState) : AppState :=
  { st with
    mediaItems := uploadItems ids urls now st.currentFolder files ++ st.mediaItems,
    isUploading := false }

/-- A `Partial<MediaItem>` update object: `some` for a field present in the
object, `none` for an absent one. -/
structure ItemUpdates where
  id : Option String := none
  type : Option MediaType := none
  url : Option String := none
  file : Option JsFile := none
  thumbnailUrl : Option String := none
  name : Option String := none
  timestamp : Option Nat := none
  aiDescription : Option String := none
  isGenerated : Option Bool := none
  folder : Option String := none
deriving DecidableEq, Repr

/-- The object spread `{ ...item, ...updates }`: fields present in `updates`
replace the item's, the rest keep the item's values. -/
def applyUpdates (u : ItemUpdates) (item : MediaItem) : MediaItem where
  id := u.id.getD item.id
  type := u.type.getD item.type
  url := u.url.getD item.url
  file := u.file.getD item.file
  thumbnailUrl := match u.thumbnailUrl with
    | some v => some v
    | none => item.thumbnailUrl
  name := u.name.getD item.name
  timestamp := u.timestamp.getD item.timestamp
  aiDescription := match u.aiDescription with
    | some v => some v
    | none => item.aiDescription
  isGenerated := match u.isGenerated with
    | some v => some v
    | none => item.isGenerated
  folder := u.folder.getD item.folder

/-- `handleUpdateItem`: maps the update over `mediaItems`, touching only the
item with the given id, and mirrors the update into the modal's selected
item when that item has the same id. -/
def handleUpdateItem (id : String) (updates : ItemUpdates) (st : AppState) :
    AppState :=
  let items := st.mediaItems.map fun item =>
    if item.id = id then applyUpdates updates item else item
  match st.selectedItem with
  | some sel =>
    if sel.id = id then
      { st with mediaItems := items, selectedItem := some (applyUpdates updates sel) }
    else
      { st with mediaItems := items }
  | none => { st with mediaItems := items }

/-- The `mode` argument of `handleSaveGenerated`. -/
inductive SaveMode where
  | new
  | overwrite
deriving DecidableEq, Repr

/-- `handleSaveGenerated`. `blobOk` is whether `base64ToBlob` succeeded (on
failure the `catch` only logs, leaving the state unchanged); `newId` the
`uuidv4()` result, `objUrl` the `URL.createObjectURL(blob)` result, `now`
the `Date.now()` value. The saved file is `new File([blob], name + ".png",
type image/png)`. In overwrite mode the matching item gets the new url,
file, name, generated flag and timestamp, and the modal's selected item (if
any) is refreshed the same way; in new mode a fresh item is prepended,
placed in the original item's folder when that item is found, else in the
current folder. -/
def handleSaveGenerated (blobOk : Bool) (newId objUrl : String) (now : Nat)
    (originalId : String) (name : String) (mode : SaveMode) (st : AppState) :
    AppState :=
  if blobOk then
    let file : JsFile := { name := name ++ ".png", type := "image/png" }
    match mode with
    | .overwrite =>
      { st with
        mediaItems := st.mediaItems.map fun item =>
          if item.id = originalId then
            { item with url := objUrl, file := file, name := name,
                        isGenerated := some true, timestamp := now }
          else item,
        selectedItem := st.selectedItem.map fun prev =>
          { prev with url := objUrl, file := file, name := name,
                      isGenerated := some true } }
    | .new =>
      let originalItem := st.mediaItems.find? fun i => i.id = originalId
      let newItem : MediaItem :=
        { id := newId, type := .image, url := objUrl, file := file,
          name := name, timestamp := now, isGenerated := some true,
          folder := match originalItem with
            | some o => o.folder
            | none => st.currentFolder }
      { st with mediaItems := newItem :: st.mediaItems }
  else st

/-- `addFolder`: appends the trimmed input when it is non-empty and not
already present, then clears the input; otherwise the state is unchanged. -/
def addFolder (st : AppState) : AppState :=
  if jsTrim st.newFolderInput ≠ "" ∧ jsTrim st.newFolderInput ∉ st.folders then
    { st with folders := st.folders ++ [jsTrim st.newFolderInput],
              newFolderInput := "", showNewFolderInput := false }
  else st

/-- Clicking a folder button in the sidebar: `setCurrentFolder(folder)`. -/
def selectFolder (f : String) (st : AppState) : AppState :=
  { st with currentFolder := f }

/-- The type-filter conjunct of the gallery filter:
`typeFilter === 'all' || item.type === typeFilter`. -/
def typeMatches (tf : TypeFilter) (item : MediaItem) : Bool :=
  match tf with
  | .all => true
  | .image => item.type = .image
  | .video => item.type = .video

/-- `filteredItems`: the items of the current folder passing the type filter
whose lower-cased name contains the lower-cased search query. -/
def filteredItems (st : AppState) : List MediaItem :=
  st.mediaItems.filter fun item =>
    (item.folder = st.currentFolder : Bool) && typeMatches st.typeFilter item &&
      jsIncludes (jsToLower item.name) (jsToLower st.searchQuery)

/-- The local state hooks of the `MediaModal` component that `handleAction`
touches. -/
structure ModalState where
  prompt : String
  status : AppStatus
  resultText : Option String
  generatedImageUrl : Option String
deriving DecidableEq, Repr

/-- The generic localized error text shown when an AI call fails. -/
def genericErrorText : String :=
  "Bir hata oluştu. Lütfen tekrar deneyin. (Dosya boyutu çok büyük olabilir)"

/-- The success text shown after an image edit. -/
def imageEditedText : String :=
  "Görsel başarıyla düzenlendi! Kaydetme seçenekleri için 'Kaydet' butonunu kullanın."

/-- `customPrompt || prompt`: the custom prompt when it is present and not
the empty string (JavaScript `||` treats `""` as false), else the typed
prompt. -/
def effectivePrompt (customPrompt : Option String) (ms : ModalState) : String :=
  match customPrompt with
  | some c => if c = "" then ms.prompt else c
  | none => ms.prompt

/-- `handleAction` of the modal. The outcome of the single awaited service
call (`editImageWithGemini` for an image, `analyzeVideoWithGemini` for a
video) is passed in as `callResult`: `.ok` its resolved value, `.error` a
thrown error. Returns the new modal state and the new application state
(the latter changes only through `onUpdateItem` on video success). The
transient `PROCESSING` status set before the `await` is overwritten by the
outcome in every branch, so only the final state appears here. -/
def handleAction (item : MediaItem) (customPrompt : Option String)
    (callResult : Except String String) (ms : ModalState) (st : AppState) :
    ModalState × AppState :=
  if jsTrim (effectivePrompt customPrompt ms) = "" then (ms, st)
  else
    match item.type, callResult with
    | .image, .ok newImageUrl =>
      ({ ms with generatedImageUrl := some newImageUrl,
                 resultText := some imageEditedText,
                 status := .SUCCESS }, st)
    | .video, .ok analysis =>
      ({ ms with resultText := some analysis, status := .SUCCESS },
       handleUpdateItem item.id { aiDescription := some analysis } st)
    | _, .error _ =>
      ({ ms with resultText := some genericErrorText, status := .ERROR }, st)

/-- `handleRename` of the modal: when the edited name trims to something
non-empty, forwards `{ name: tempName }` to `onUpdateItem` for the open
item; otherwise nothing happens. -/
def handleRename (itemId tempName : String) (st : AppState) : AppState :=
  if jsTrim tempName ≠ "" then
    handleUpdateItem itemId { name := some tempName } st
  else st

/-- The inline data of a response part: a declared MIME type and the base64
payload string. -/
structure InlineData where
  mimeType : String
  data : String
deriving DecidableEq, Repr

/-- One part of a response candidate's content. -/
structure RespPart where
  text : Option String := none
  inlineData : Option InlineData := none
deriving DecidableEq, Repr

/-- A candidate's content: its (possibly absent) list of parts. -/
structure RespContent where
  parts : Option (List RespPart) := none
deriving DecidableEq, Repr

/-- One response candidate. -/
structure Candidate where
  content : Option RespContent := none
deriving DecidableEq, Repr

/-- A `generateContent` response, as far as the code reads it. -/
structure GenResponse where
  candidates : Option (List Candidate) := none
deriving DecidableEq, Repr

/-- The error message of the `throw` in `editImageWithGemini`. -/
def noImageErrorText : String := "Görsel oluşturulamadı. Lütfen tekrar deneyin."

/-- One iteration of the loop of `editImageWithGemini` over the parts: a
part whose `inlineData` is present with truthy (non-empty) `data` yields
that data, otherwise the rest of the loop decides. -/
def findInlineOne (p : RespPart) (rest : Option String) : Option String :=
  match p.inlineData with
  | some d => if d.data ≠ "" then some d.data else rest
  | none => rest

/-- The loop of `editImageWithGemini` over the first candidate's parts:
the first part whose `inlineData` is present with truthy (non-empty) `data`
yields that data. -/
def findInline (ps : List RespPart) : Option String :=
  ps.foldr findInlineOne none

/-- `editImageWithGemini`, given the API response (the base64 encoding and
the network call are elided): returns the first non-empty inline payload of
the first candidate wrapped in a PNG data URL, and otherwise throws. -/
def editImageWithGemini (response : GenResponse) : Except String String :=
  match response.candidates with
  | some (c0 :: _) =>
    match c0.content with
    | some content =>
      match content.parts with
      | some parts =>
        match findInline parts with
        | some d => .ok ("data:image/png;base64," ++ d)
        | none => .error noImageErrorText
      | none => .error noImageErrorText
    | none => .error noImageErrorText
  | _ => .error noImageErrorText

/-- Whether a part carries inline data with a non-empty payload. -/
def nonEmptyInline (p : RespPart) : Bool :=
  match p.inlineData with
  | some d => d.data ≠ ""
  | none => false

/-- The part list of the response's first candidate, empty when any level
is absent. -/
def firstCandidateParts (r : GenResponse) : List RespPart :=
  match r.candidates with
  | some (c0 :: _) =>
    (match c0.content with
     | some ct => ct.parts.getD []
     | none => [])
  | _ => []

/-- The payload of the first part of the first candidate that carries
non-empty inline data, stated through `List.find?`. -/
def specFirstInline (r : GenResponse) : Option String :=
  ((firstCandidateParts r).find? nonEmptyInline).bind fun p =>
    p.inlineData.map fun d => d.data

/-- A part with its declared MIME type replaced by `m`. -/
def setPartMime (m : String) (p : RespPart) : RespPart :=
  { p with inlineData := p.inlineData.map fun d => { d with mimeType := m } }

/-- The response with every part's declared MIME type replaced by `m`. -/
def setAllMime (m : String) (r : GenResponse) : GenResponse :=
  { candidates := r.candidates.map fun cs => cs.map fun c =>
      { content := c.content.map fun ct =>
          { parts := ct.parts.map fun ps => ps.map (setPartMime m) } } }

/-- An update object `{ name: n }`. -/
def nameUpdate (n : String) : ItemUpdates := { name := some n }

/-- An update object `{ folder: f }`, as built by `handleFolderChange`. -/
def folderUpdate (f : String) : ItemUpdates := { folder := some f }

/-- An update object `{ aiDescription: s }`, as built by the video branch of
`handleAction`. -/
def descriptionUpdate (s : String) : ItemUpdates := { aiDescription := some s }

/-- One user-visible operation of the application: each constructor is one
way the UI changes the `App` component's state. The folder passed to
`setCurrentFolder` and to `handleFolderChange` comes from the rendered
`folders` list, and the item passed to `setSelectedItem` from the rendered
(filtered) `mediaItems`, so those constructors carry the matching
membership facts. -/
inductive Step : AppState → AppState → Prop where
  | upload (ids urls : Nat → String) (now : Nat) (files : List JsFile)
      (st : AppState) : Step st (handleFiles ids urls now files st)
  | saveGenerated (blobOk : Bool) (newId objUrl : String) (now : Nat)
      (originalId name : String) (mode : SaveMode) (st : AppState) :
      Step st (handleSaveGenerated blobOk newId objUrl now originalId name mode st)
  | rename (itemId tempName : String) (st : AppState) :
      Step st (handleRename itemId tempName st)
  | moveToFolder (itemId f : String) (st : AppState) (hf : f ∈ st.folders) :
      Step st (handleUpdateItem itemId (folderUpdate f) st)
  | describe (itemId s : String) (st : AppState) :
      Step st (handleUpdateItem itemId (descriptionUpdate s) st)
  | newFolder (st : AppState) : Step st (addFolder st)
  | typeFolderName (s : String) (st : AppState) :
      Step st { st with newFolderInput := s }
  | pickFolder (f : String) (st : AppState) (hf : f ∈ st.folders) :
      Step st (selectFolder f st)
  | openItem (it : MediaItem) (st : AppState) (hit : it ∈ st.mediaItems) :
      Step st { st with selectedItem := some it }
  | closeModal (st : AppState) : Step st { st with selectedItem := none }
  | search (q : String) (st : AppState) : Step st { st with searchQuery := q }
  | filterType (tf : TypeFilter) (st : AppState) :
      Step st { st with typeFilter := tf }
  | toggleNewFolderInput (b : Bool) (st : AppState) :
      Step st { st with showNewFolderInput := b }
  | drag (b : Bool) (st : AppState) : Step st { st with dragActive := b }

/-- The states the application can reach from its initial state. -/
inductive Reachable : AppState → Prop where
  | init : Reachable initState
  | step {st st' : AppState} : Reachable st → Step st st' → Reachable st'

/-- The ids of a list of media items, in order. -/
def idsOf (items : List MediaItem) : List String :=
  items.map fun it => it.id

/-- A frame condition on an update: every field absent from the update object
keeps the old item's value. -/
def FrameOk (u : ItemUpdates) (old nw : MediaItem) : Prop :=
  (u.id = none → nw.id = old.id)
  ∧ (u.type = none → nw.type = old.type)
  ∧ (u.url = none → nw.url = old.url)
  ∧ (u.file = none → nw.file = old.file)
  ∧ (u.thumbnailUrl = none → nw.thumbnailUrl = old.thumbnailUrl)
  ∧ (u.name = none → nw.name = old.name)
  ∧ (u.timestamp = none → nw.timestamp = old.timestamp)
  ∧ (u.aiDescription = none → nw.aiDescription = old.aiDescription)
  ∧ (u.isGenerated = none → nw.isGenerated = old.isGenerated)
  ∧ (u.folder = none → nw.folder = old.folder)

/-- The invariant of the application state the folder claims rely on:
the folder list has no duplicates, the active folder is in it, and every
item's folder is in it. -/
def Inv (st : AppState) : Prop :=
  st.folders.Nodup ∧ st.currentFolder ∈ st.folders
    ∧ ∀ it ∈ st.mediaItems, it.folder ∈ st.folders

/-- A sample image item, used to instantiate theorems at concrete inputs. -/
def itemW : MediaItem :=
  { id := "w1", type := .image, url := "blob:w",
    file := { name := "w.png", type := "image/png" },
    name := "w", timestamp := 0, folder := DEFAULT_FOLDER }

/-- A sample application state holding `itemW`, with `itemW` open in the
modal. -/
def stW : AppState :=
  { initState with mediaItems := [itemW], selectedItem := some itemW }

/-- A sample modal state. -/
def msW : ModalState :=
  { prompt := "", status := .IDLE, resultText := none, generatedImageUrl := none }

theorem uploadItemsFrom_nil (ids urls : Nat → String) (now : Nat)
    (fol : String) :
    uploadItemsFrom ids urls now fol [] = fun _ => [] := rfl

theorem uploadItemsFrom_cons (ids urls : Nat → String) (now : Nat)
    (fol : String) (f : JsFile) (rest : List JsFile) :
    uploadItemsFrom ids urls now fol (f :: rest) =
      uploadOne ids urls now fol f (uploadItemsFrom ids urls now fol rest) := by
  unfold uploadItemsFrom
  exact List.foldr_cons rest

theorem uploadItemsFrom_folder (ids urls : Nat → String) (now : Nat)
    (fol : String) (files : List JsFile) :
    ∀ k, ∀ it ∈ uploadItemsFrom ids urls now fol files k, it.folder = fol := by
  induction files with
  | nil => intro k it h; cases h
  | cons f rest ih =>
    intro k it h
    rw [uploadItemsFrom_cons] at h
    unfold uploadOne at h
    cases hty : getFileType f with
    | some t =>
      rw [hty] at h
      rcases List.mem_cons.1 h with h | h
      · rw [h]
      · exact ih _ it h
    | none =>
      rw [hty] at h
      exact ih _ it h

theorem uploadItems_folder (ids urls : Nat → String) (now : Nat) (fol : String)
    (files : List JsFile) :
    ∀ it ∈ uploadItems ids urls now fol files, it.folder = fol :=
  uploadItemsFrom_folder ids urls now fol files 0

theorem uploadItemsFrom_map_file (ids urls : Nat → String) (now : Nat)
    (fol : String) (files : List JsFile) :
    ∀ k, (uploadItemsFrom ids urls now fol files k).map (fun it => it.file) =
      files.filter fun f => (getFileType f).isSome := by
  induction files with
  | nil => intro k; rfl
  | cons f rest ih =>
    intro k
    rw [uploadItemsFrom_cons]
    unfold uploadOne
    cases hty : getFileType f with
    | some t => simp [List.filter_cons, hty, ih]
    | none => simp [List.filter_cons, hty, ih]

theorem uploadItems_map_file (ids urls : Nat → String) (now : Nat) (fol : String)
    (files : List JsFile) :
    (uploadItems ids urls now fol files).map (fun it => it.file) =
      files.filter fun f => (getFileType f).isSome :=
  uploadItemsFrom_map_file ids urls now fol files 0

theorem uploadItems_length (ids urls : Nat → String) (now : Nat) (fol : String)
    (files : List JsFile) :
    (uploadItems ids urls now fol files).length =
      (files.filter fun f => (getFileType f).isSome).length := by
  have h := uploadItems_map_file ids urls now fol files
  have := congrArg List.length h
  simpa using this

theorem applyUpdates_frame (u : ItemUpdates) (old : MediaItem) :
    FrameOk u old (applyUpdates u old) := by
  refine ⟨?_, ?_, ?_, ?_, ?_, ?_, ?_, ?_, ?_, ?_⟩ <;>
    intro h <;> simp [applyUpdates, h]

theorem applyUpdates_id_of_none (u : ItemUpdates) (old : MediaItem)
    (h : u.id = none) : (applyUpdates u old).id = old.id := by
  simp [applyUpdates, h]

theorem handleUpdateItem_mediaItems (id : String) (u : ItemUpdates)
    (st : AppState) :
    (handleUpdateItem id u st).mediaItems =
      st.mediaItems.map fun item =>
        if item.id = id then applyUpdates u item else item := by
  unfold handleUpdateItem
  rcases hsel : st.selectedItem with _ | sel
  · simp [hsel]
  · simp only [hsel]
    split <;> rfl

theorem handleUpdateItem_selectedItem (id : String) (u : ItemUpdates)
    (st : AppState) :
    (handleUpdateItem id u st).selectedItem =
      (match st.selectedItem with
       | some sel => if sel.id = id then some (applyUpdates u sel) else some sel
       | none => none) := by
  unfold handleUpdateItem
  rcases hsel : st.selectedItem with _ | sel
  · simp [hsel]
  · simp only [hsel]
    split <;> simp

theorem handleUpdateItem_folders (id : String) (u : ItemUpdates) (st : AppState) :
    (handleUpdateItem id u st).folders = st.folders := by
  unfold handleUpdateItem
  rcases hsel : st.selectedItem with _ | sel
  · simp [hsel]
  · simp only [hsel]
    split <;> rfl

theorem handleUpdateItem_currentFolder (id : String) (u : ItemUpdates)
    (st : AppState) :
    (handleUpdateItem id u st).currentFolder = st.currentFolder := by
  unfold handleUpdateItem
  rcases hsel : st.selectedItem with _ | sel
  · simp [hsel]
  · simp only [hsel]
    split <;> rfl

theorem handleSaveGenerated_folders (blobOk : Bool) (newId objUrl : String)
    (now : Nat) (originalId name : String) (mode : SaveMode) (st : AppState) :
    (handleSaveGenerated blobOk newId objUrl now originalId name mode st).folders =
      st.folders := by
  unfold handleSaveGenerated
  split
  · split <;> rfl
  · rfl

theorem handleSaveGenerated_currentFolder (blobOk : Bool) (newId objUrl : String)
    (now : Nat) (originalId name : String) (mode : SaveMode) (st : AppState) :
    (handleSaveGenerated blobOk newId objUrl now originalId name mode
        st).currentFolder = st.currentFolder := by
  unfold handleSaveGenerated
  split
  · split <;> rfl
  · rfl

theorem handleRename_folders (itemId tempName : String) (st : AppState) :
    (handleRename itemId tempName st).folders = st.folders := by
  unfold handleRename
  split
  · exact handleUpdateItem_folders ..
  · rfl

theorem handleRename_currentFolder (itemId tempName : String) (st : AppState) :
    (handleRename itemId tempName st).currentFolder = st.currentFolder := by
  unfold handleRename
  split
  · exact handleUpdateItem_currentFolder ..
  · rfl

theorem addFolder_folders (st : AppState) :
    (addFolder st).folders =
      (if jsTrim st.newFolderInput ≠ "" ∧ jsTrim st.newFolderInput ∉ st.folders
       then st.folders ++ [jsTrim st.newFolderInput] else st.folders) := by
  unfold addFolder
  split <;> rfl

theorem addFolder_mediaItems (st : AppState) :
    (addFolder st).mediaItems = st.mediaItems := by
  unfold addFolder
  split <;> rfl

theorem addFolder_currentFolder (st : AppState) :
    (addFolder st).currentFolder = st.currentFolder := by
  unfold addFolder
  split <;> rfl

theorem applyUpdates_id (u : ItemUpdates) (a : MediaItem) :
    (applyUpdates u a).id = u.id.getD a.id := rfl

theorem applyUpdates_name (u : ItemUpdates) (a : MediaItem) :
    (applyUpdates u a).name = u.name.getD a.name := rfl

theorem applyUpdates_folder (u : ItemUpdates) (a : MediaItem) :
    (applyUpdates u a).folder = u.folder.getD a.folder := rfl

theorem handleFiles_mediaItems (ids urls : Nat → String) (now : Nat)
    (files : List JsFile) (st : AppState) :
    (handleFiles ids urls now files st).mediaItems =
      uploadItems ids urls now st.currentFolder files ++ st.mediaItems := rfl

theorem handleFiles_folders (ids urls : Nat → String) (now : Nat)
    (files : List JsFile) (st : AppState) :
    (handleFiles ids urls now files st).folders = st.folders := rfl

theorem handleSaveGenerated_failed (newId objUrl : String) (now : Nat)
    (originalId name : String) (mode : SaveMode) (st : AppState) :
    handleSaveGenerated false newId objUrl now originalId name mode st = st := rfl

theorem handleSaveGenerated_mediaItems_overwrite (newId objUrl : String)
    (now : Nat) (originalId name : String) (st : AppState) :
    (handleSaveGenerated true newId objUrl now originalId name .overwrite
        st).mediaItems =
      st.mediaItems.map fun item =>
        if item.id = originalId then
          { item with url := objUrl,
                      file := { name := name ++ ".png", type := "image/png" },
                      name := name, isGenerated := some true, timestamp := now }
        else item := rfl

theorem handleSaveGenerated_mediaItems_new (newId objUrl : String) (now : Nat)
    (originalId name : String) (st : AppState) :
    (handleSaveGenerated true newId objUrl now originalId name .new
        st).mediaItems =
      { id := newId, type := .image, url := objUrl,
        file := { name := name ++ ".png", type := "image/png" }, name := name,
        timestamp := now, isGenerated := some true,
        folder :=
          match st.mediaItems.find? fun i => i.id = originalId with
          | some o => o.folder
          | none => st.currentFolder } :: st.mediaItems := rfl

theorem idsOf_append (l₁ l₂ : List MediaItem) :
    idsOf (l₁ ++ l₂) = idsOf l₁ ++ idsOf l₂ := by
  simp [idsOf]

theorem idsOf_map_of_preserved (f : MediaItem → MediaItem)
    (hf : ∀ it, (f it).id = it.id) (l : List MediaItem) :
    idsOf (l.map f) = idsOf l := by
  simp only [idsOf, List.map_map]
  exact List.map_congr_left fun a _ => hf a

theorem handleUpdateItem_length (id : String) (u : ItemUpdates) (st : AppState) :
    (handleUpdateItem id u st).mediaItems.length = st.mediaItems.length := by
  rw [handleUpdateItem_mediaItems]
  exact List.length_map ..

theorem handleUpdateItem_ids (id : String) (u : ItemUpdates) (st : AppState)
    (hu : u.id = none) :
    idsOf (handleUpdateItem id u st).mediaItems = idsOf st.mediaItems := by
  rw [handleUpdateItem_mediaItems]
  apply idsOf_map_of_preserved
  intro it
  by_cases h : it.id = id
  · rw [if_pos h, applyUpdates_id, hu, Option.getD_none]
  · rw [if_neg h]

theorem inv_init : Inv initState :=
  ⟨by decide, by decide, fun it h => nomatch h⟩

theorem handleUpdateItem_items_folder (id : String) (u : ItemUpdates)
    (st : AppState)
    (hitems : ∀ it ∈ st.mediaItems, it.folder ∈ st.folders)
    (hu : u.folder = none ∨ ∃ f, u.folder = some f ∧ f ∈ st.folders) :
    ∀ it ∈ (handleUpdateItem id u st).mediaItems, it.folder ∈ st.folders := by
  intro it hit
  rw [handleUpdateItem_mediaItems] at hit
  rcases List.mem_map.1 hit with ⟨a, ha, rfl⟩
  by_cases h : a.id = id
  · rw [if_pos h, applyUpdates_folder]
    rcases hu with hu | ⟨f, hf, hmem⟩
    · rw [hu, Option.getD_none]
      exact hitems a ha
    · rw [hf, Option.getD_some]
      exact hmem
  · rw [if_neg h]
    exact hitems a ha

theorem step_folders_mono {st st' : AppState} (h : Step st st') :
    ∀ f ∈ st.folders, f ∈ st'.folders := by
  cases h with
  | upload ids urls now files st => exact fun f hf => hf
  | saveGenerated blobOk newId objUrl now originalId name mode st =>
    intro f hf
    rw [handleSaveGenerated_folders]
    exact hf
  | rename itemId tempName st =>
    intro f hf
    rw [handleRename_folders]
    exact hf
  | moveToFolder itemId f st hfm =>
    intro g hg
    rw [handleUpdateItem_folders]
    exact hg
  | describe itemId s st =>
    intro g hg
    rw [handleUpdateItem_folders]
    exact hg
  | newFolder st =>
    intro f hf
    rw [addFolder_folders]
    split
    · exact List.mem_append_left _ hf
    · exact hf
  | typeFolderName s st => exact fun f hf => hf
  | pickFolder f st hf => exact fun g hg => hg
  | openItem it st hit => exact fun f hf => hf
  | closeModal st => exact fun f hf => hf
  | search q st => exact fun f hf => hf
  | filterType tf st => exact fun f hf => hf
  | toggleNewFolderInput b st => exact fun f hf => hf
  | drag b st => exact fun f hf => hf

theorem step_inv {st st' : AppState} (h : Step st st') (hinv : Inv st) :
    Inv st' := by
  obtain ⟨hnd, hcur, hitems⟩ := hinv
  cases h with
  | upload ids urls now files st =>
    refine ⟨hnd, hcur, ?_⟩
    intro it hit
    rw [handleFiles_mediaItems] at hit
    rcases List.mem_append.1 hit with hm | hm
    · rw [uploadItems_folder ids urls now st.currentFolder files it hm]
      exact hcur
    · exact hitems it hm
  | saveGenerated blobOk newId objUrl now originalId name mode st =>
    cases blobOk with
    | false => exact ⟨hnd, hcur, hitems⟩
    | true =>
      cases mode with
      | overwrite =>
        refine ⟨hnd, hcur, ?_⟩
        intro it hit
        rw [handleSaveGenerated_mediaItems_overwrite] at hit
        rcases List.mem_map.1 hit with ⟨a, ha, rfl⟩
        by_cases hid : a.id = originalId
        · rw [if_pos hid]
          exact hitems a ha
        · rw [if_neg hid]
          exact hitems a ha
      | new =>
        refine ⟨hnd, hcur, ?_⟩
        intro it hit
        rw [handleSaveGenerated_mediaItems_new] at hit
        rcases List.mem_cons.1 hit with hm | hm
        · rw [hm]
          cases hfind : st.mediaItems.find? fun i => i.id = originalId with
          | some o =>
            simp only [hfind]
            exact hitems o (List.mem_of_find?_eq_some hfind)
          | none =>
            simp only [hfind]
            exact hcur
        · exact hitems it hm
  | rename itemId tempName st =>
    unfold handleRename
    split
    · refine ⟨?_, ?_, ?_⟩
      · rw [handleUpdateItem_folders]
        exact hnd
      · rw [handleUpdateItem_folders, handleUpdateItem_currentFolder]
        exact hcur
      · intro it hit
        rw [handleUpdateItem_folders]
        exact handleUpdateItem_items_folder itemId _ st hitems (Or.inl rfl) it hit
    · exact ⟨hnd, hcur, hitems⟩
  | moveToFolder itemId f st hfm =>
    refine ⟨?_, ?_, ?_⟩
    · rw [handleUpdateItem_folders]
      exact hnd
    · rw [handleUpdateItem_folders, handleUpdateItem_currentFolder]
      exact hcur
    · intro it hit
      rw [handleUpdateItem_folders]
      exact handleUpdateItem_items_folder itemId _ st hitems (Or.inr ⟨f, rfl, hfm⟩) it hit
  | describe itemId s st =>
    refine ⟨?_, ?_, ?_⟩
    · rw [handleUpdateItem_folders]
      exact hnd
    · rw [handleUpdateItem_folders, handleUpdateItem_currentFolder]
      exact hcur
    · intro it hit
      rw [handleUpdateItem_folders]
      exact handleUpdateItem_items_folder itemId _ st hitems (Or.inl rfl) it hit
  | newFolder st =>
    unfold addFolder
    split
    · next hcond =>
      refine ⟨?_, List.mem_append_left _ hcur,
        fun it hit => List.mem_append_left _ (hitems it hit)⟩
      rw [List.nodup_append]
      refine ⟨hnd, List.nodup_singleton _, ?_⟩
      intro a ha hmem
      rw [List.mem_singleton] at hmem
      exact hcond.2 (hmem ▸ ha)
    · exact ⟨hnd, hcur, hitems⟩
  | typeFolderName s st => exact ⟨hnd, hcur, hitems⟩
  | pickFolder f st hf => exact ⟨hnd, hf, hitems⟩
  | openItem it st hit => exact ⟨hnd, hcur, hitems⟩
  | closeModal st => exact ⟨hnd, hcur, hitems⟩
  | search q st => exact ⟨hnd, hcur, hitems⟩
  | filterType tf st => exact ⟨hnd, hcur, hitems⟩
  | toggleNewFolderInput b st => exact ⟨hnd, hcur, hitems⟩
  | drag b st => exact ⟨hnd, hcur, hitems⟩

theorem reachable_inv {st : AppState} (h : Reachable st) : Inv st := by
  induction h with
  | init => exact inv_init
  | step _ hstep ih => exact step_inv hstep ih

theorem step_ids_mono {st st' : AppState} (h : Step st st') :
    (∀ i ∈ idsOf st.mediaItems, i ∈ idsOf st'.mediaItems)
      ∧ st.mediaItems.length ≤ st'.mediaItems.length := by
  cases h with
  | upload ids urls now files st =>
    constructor
    · intro i hi
      rw [handleFiles_mediaItems, idsOf_append]
      exact List.mem_append_right _ hi
    · rw [handleFiles_mediaItems, List.length_append]
      exact Nat.le_add_left _ _
  | saveGenerated blobOk newId objUrl now originalId name mode st =>
    cases blobOk with
    | false => exact ⟨fun i hi => hi, Nat.le_refl _⟩
    | true =>
      cases mode with
      | overwrite =>
        constructor
        · intro i hi
          rw [handleSaveGenerated_mediaItems_overwrite,
            idsOf_map_of_preserved]
          · exact hi
          · intro it
            by_cases hid : it.id = originalId
            · rw [if_pos hid]
            · rw [if_neg hid]
        · rw [handleSaveGenerated_mediaItems_overwrite, List.length_map]
      | new =>
        constructor
        · intro i hi
          rw [handleSaveGenerated_mediaItems_new]
          exact List.mem_cons_of_mem _ hi
        · rw [handleSaveGenerated_mediaItems_new, List.length_cons]
          exact Nat.le_succ _
  | rename itemId tempName st =>
    unfold handleRename
    split
    · constructor
      · intro i hi
        rw [handleUpdateItem_ids itemId _ st rfl]
        exact hi
      · rw [handleUpdateItem_length]
    · exact ⟨fun i hi => hi, Nat.le_refl _⟩
  | moveToFolder itemId f st hfm =>
    constructor
    · intro i hi
      rw [handleUpdateItem_ids itemId _ st rfl]
      exact hi
    · rw [handleUpdateItem_length]
  | describe itemId s st =>
    constructor
    · intro i hi
      rw [handleUpdateItem_ids itemId _ st rfl]
      exact hi
    · rw [handleUpdateItem_length]
  | newFolder st =>
    constructor
    · intro i hi
      rw [addFolder_mediaItems]
      exact hi
    · rw [addFolder_mediaItems]
  | typeFolderName s st => exact ⟨fun i hi => hi, Nat.le_refl _⟩
  | pickFolder f st hf => exact ⟨fun i hi => hi, Nat.le_refl _⟩
  | openItem it st hit => exact ⟨fun i hi => hi, Nat.le_refl _⟩
  | closeModal st => exact ⟨fun i hi => hi, Nat.le_refl _⟩
  | search q st => exact ⟨fun i hi => hi, Nat.le_refl _⟩
  | filterType tf st => exact ⟨fun i hi => hi, Nat.le_refl _⟩
  | toggleNewFolderInput b st => exact ⟨fun i hi => hi, Nat.le_refl _⟩
  | drag b st => exact ⟨fun i hi => hi, Nat.le_refl _⟩

theorem includesList_nil_right (l : List Char) : includesList l [] = true := by
  cases l <;> rfl

theorem jsIncludes_empty (s : String) : jsIncludes s "" = true :=
  includesList_nil_right s.data

theorem findInline_nil : findInline [] = none := rfl

theorem findInline_cons (p : RespPart) (rest : List RespPart) :
    findInline (p :: rest) = findInlineOne p (findInline rest) := rfl

theorem findInline_eq_find? (ps : List RespPart) :
    findInline ps =
      (ps.find? nonEmptyInline).bind fun p =>
        p.inlineData.map fun d => d.data := by
  induction ps with
  | nil => rfl
  | cons p rest ih =>
    rw [findInline_cons]
    cases hd : p.inlineData with
    | some d =>
      by_cases hne : d.data = ""
      · have hp : nonEmptyInline p = false := by
          simp [nonEmptyInline, hd, hne]
        rw [List.find?_cons_of_neg _ (by simp [hp])]
        simp [findInlineOne, hd, hne, ih]
      · have hp : nonEmptyInline p = true := by
          simp [nonEmptyInline, hd, hne]
        rw [List.find?_cons_of_pos _ hp]
        simp [findInlineOne, hd, hne]
    | none =>
      have hp : nonEmptyInline p = false := by
        simp [nonEmptyInline, hd]
      rw [List.find?_cons_of_neg _ (by simp [hp])]
      simp [findInlineOne, hd, ih]

theorem findInline_eq_spec (r : GenResponse) :
    findInline (firstCandidateParts r) = specFirstInline r :=
  findInline_eq_find? _

theorem findInline_map_mime (m : String) (ps : List RespPart) :
    findInline (ps.map (setPartMime m)) = findInline ps := by
  induction ps with
  | nil => rfl
  | cons p rest ih =>
    rw [List.map_cons, findInline_cons, findInline_cons, ih]
    unfold findInlineOne setPartMime
    cases hd : p.inlineData with
    | some d => simp [hd]
    | none => simp [hd]

theorem firstCandidateParts_setAllMime (m : String) (r : GenResponse) :
    firstCandidateParts (setAllMime m r) =
      (firstCandidateParts r).map (setPartMime m) := by
  obtain ⟨candidates⟩ := r
  cases candidates with
  | none => rfl
  | some cs =>
    cases cs with
    | nil => rfl
    | cons c0 rest =>
      obtain ⟨content⟩ := c0
      cases content with
      | none => rfl
      | some ct =>
        obtain ⟨parts⟩ := ct
        cases parts with
        | none => rfl
        | some ps => rfl

theorem editImageWithGemini_eq (r : GenResponse) :
    editImageWithGemini r =
      (match findInline (firstCandidateParts r) with
       | some d => .ok ("data:image/png;base64," ++ d)
       | none => .error noImageErrorText) := by
  obtain ⟨candidates⟩ := r
  cases candidates with
  | none => rfl
  | some cs =>
    cases cs with
    | nil => rfl
    | cons c0 rest =>
      obtain ⟨content⟩ := c0
      cases content with
      | none => rfl
      | some ct =>
        obtain ⟨parts⟩ := ct
        cases parts with
        | none => rfl
        | some ps => rfl

theorem specFirstInline_ne_empty (r : GenResponse) (d : String)
    (h : specFirstInline r = some d) : d ≠ "" := by
  unfold specFirstInline at h
  cases hf : (firstCandidateParts r).find? nonEmptyInline with
  | none =>
    rw [hf] at h
    cases h
  | some p =>
    rw [hf] at h
    have hp := List.find?_some hf
    cases hd : p.inlineData with
    | none =>
      simp [hd] at h
    | some dd =>
      simp [hd] at h
      have hne : dd.data ≠ "" := by
        simpa [nonEmptyInline, hd] using hp
      rw [← h]
      exact hne

/-- C1, counterexample: a file whose MIME type (`text/plain`) is neither
image nor video is skipped by `handleFiles` — no item at all is added for
it — so `handleFiles` does not add exactly one `MediaItem` for *every*
uploaded file when no precondition is put on the file's MIME type. -/
theorem handleFiles_skips_unrecognised_file :
    (handleFiles (fun _ => "id0") (fun _ => "url0") 0
        [{ name := "a.txt", type := "text/plain" }] initState).mediaItems = []
    ∧ (handleFiles (fun _ => "id0") (fun _ => "url0") 0
        [{ name := "a.txt", type := "text/plain" }] initState).mediaItems.length
      ≠ initState.mediaItems.length + 1 := by
  constructor
  · rfl
  · decide

/-- C1, amended: for every uploaded file whose MIME type is recognised
(starts with `image/` or `video/`, i.e. `getFileType` is some),
`handleFiles` adds exactly one `MediaItem`, whose folder is the currently
selected folder; files of any other MIME type add no item; the pre-existing
items are left at the end of the list unmodified. -/
theorem handleFiles_adds_one_item_per_media_file (ids urls : Nat → String)
    (now : Nat) (files : List JsFile) (st : AppState) :
    ∃ newItems : List MediaItem,
      (handleFiles ids urls now files st).mediaItems = newItems ++ st.mediaItems
      ∧ newItems.map (fun it => it.file) =
          files.filter (fun f => (getFileType f).isSome)
      ∧ newItems.length = (files.filter fun f => (getFileType f).isSome).length
      ∧ ∀ it ∈ newItems, it.folder = st.currentFolder := by
  refine ⟨uploadItems ids urls now st.currentFolder files,
    handleFiles_mediaItems ids urls now files st,
    uploadItems_map_file ids urls now st.currentFolder files, ?_,
    uploadItems_folder ids urls now st.currentFolder files⟩
  have h := congrArg List.length
    (uploadItems_map_file ids urls now st.currentFolder files)
  simpa using h

/-- C2: no user-visible operation of the application (`Step` covers file
ingestion, generated-image saves in both modes, renames, folder moves,
AI-description updates, `addFolder` and the pure UI-state setters) removes
a media item: every id present in `mediaItems` before an operation is still
present afterwards, and the length of `mediaItems` never decreases. -/
theorem no_operation_removes_items {st st' : AppState} (h : Step st st') :
    (∀ i ∈ idsOf st.mediaItems, i ∈ idsOf st'.mediaItems)
    ∧ st.mediaItems.length ≤ st'.mediaItems.length :=
  step_ids_mono h

/-- C2 witness: the theorem applied to a concrete upload step on a state
holding one item. -/
theorem no_operation_removes_items_witness :
    (∀ i ∈ idsOf stW.mediaItems,
       i ∈ idsOf (handleFiles (fun _ => "id1") (fun _ => "url1") 5
         [{ name := "b.png", type := "image/png" }] stW).mediaItems)
    ∧ stW.mediaItems.length ≤
        (handleFiles (fun _ => "id1") (fun _ => "url1") 5
          [{ name := "b.png", type := "image/png" }] stW).mediaItems.length :=
  no_operation_removes_items
    (Step.upload (fun _ => "id1") (fun _ => "url1") 5
      [{ name := "b.png", type := "image/png" }] stW)

/-- C3: whatever error the Gemini call throws (for an image edit as for a
video analysis), `handleAction` catches it and ends with the modal showing
the single generic localized error text as the result, the status `ERROR`,
and the application state — in particular `mediaItems` — unchanged; only
the one failed call occurs, no retry. -/
theorem handleAction_error_generic (item : MediaItem)
    (customPrompt : Option String) (err : String) (ms : ModalState)
    (st : AppState) (h : jsTrim (effectivePrompt customPrompt ms) ≠ "") :
    handleAction item customPrompt (.error err) ms st =
      ({ ms with status := .ERROR, resultText := some genericErrorText }, st) := by
  unfold handleAction
  rw [if_neg h]
  obtain ⟨iid, ity, iurl, ifile, ithumb, iname, its, idesc, igen, ifold⟩ := item
  cases ity <;> rfl

/-- C3 witness: the theorem applied to a concrete image item, prompt and
error. -/
theorem handleAction_error_generic_witness :
    handleAction itemW (some "Make it brighter") (.error "network failure")
        msW stW =
      ({ msW with status := .ERROR, resultText := some genericErrorText }, stW) :=
  handleAction_error_generic itemW (some "Make it brighter") "network failure"
    msW stW (by decide)

/-- C4: `editImageWithGemini` resolves to the string
`"data:image/png;base64," ++ d` exactly when the response's first candidate
contains a part with non-empty inline data, `d` being the payload of the
first such part (always non-empty); the PNG prefix does not depend on the
parts' declared MIME types; when no such part exists the function throws
(an `Error`, never a free-text result). -/
theorem editImage_png_iff_first_inline (r : GenResponse) :
    editImageWithGemini r =
      (match specFirstInline r with
       | some d => .ok ("data:image/png;base64," ++ d)
       | none => .error noImageErrorText)
    ∧ (∀ d, specFirstInline r = some d → d ≠ "")
    ∧ (∀ m, editImageWithGemini (setAllMime m r) = editImageWithGemini r) := by
  refine ⟨?_, fun d hd => specFirstInline_ne_empty r d hd, fun m => ?_⟩
  · rw [editImageWithGemini_eq, findInline_eq_spec]
  · rw [editImageWithGemini_eq (setAllMime m r), firstCandidateParts_setAllMime,
      findInline_map_mime, ← editImageWithGemini_eq]

/-- C5: renaming item `X` to a name `N` with non-empty trimmed form updates
both the list (every item with id `X` now has name `N`) and the open modal
(when the selected item has id `X` it now carries name `N`); when the
trimmed name is empty nothing changes. -/
theorem handleRename_updates_list_and_modal (X N : String) (st : AppState) :
    (jsTrim N ≠ "" →
       (∀ it ∈ (handleRename X N st).mediaItems, it.id = X → it.name = N)
       ∧ (∀ sel₀, st.selectedItem = some sel₀ → sel₀.id = X →
            (handleRename X N st).selectedItem = some { sel₀ with name := N }))
    ∧ (jsTrim N = "" → handleRename X N st = st) := by
  constructor
  · intro hne
    constructor
    · intro it hit hid
      unfold handleRename at hit
      rw [if_pos hne] at hit
      rw [handleUpdateItem_mediaItems] at hit
      rcases List.mem_map.1 hit with ⟨a, ha, rfl⟩
      by_cases h : a.id = X
      · rw [if_pos h]
        rfl
      · rw [if_neg h] at hid ⊢
        exact absurd hid h
    · intro sel₀ hsel hid
      unfold handleRename
      rw [if_pos hne, handleUpdateItem_selectedItem, hsel]
      dsimp only
      rw [if_pos hid]
      rfl
  · intro he
    unfold handleRename
    rw [if_neg fun hh => hh he]

/-- C6: in every reachable state the active folder is an element of the
folder list and every item's folder is an element of the folder list; the
items a `handleFiles` call would create are assigned the active folder,
hence an existing one, and the item a new-mode `handleSaveGenerated` would
create is assigned an existing folder (the original item's, else the active
one); and no step ever removes a folder from the list. -/
theorem every_item_folder_exists (st : AppState) (h : Reachable st) :
    st.currentFolder ∈ st.folders
    ∧ (∀ it ∈ st.mediaItems, it.folder ∈ st.folders)
    ∧ (∀ ids urls now files,
         ∀ it ∈ uploadItems ids urls now st.currentFolder files,
           it.folder ∈ st.folders)
    ∧ (∀ newId objUrl now originalId name,
         ∀ it ∈ (handleSaveGenerated true newId objUrl now originalId name
             .new st).mediaItems,
           it.folder ∈ st.folders)
    ∧ (∀ st', Step st st' → ∀ f ∈ st.folders, f ∈ st'.folders) := by
  obtain ⟨hnd, hcur, hitems⟩ := reachable_inv h
  refine ⟨hcur, hitems, ?_, ?_, fun st' hs => step_folders_mono hs⟩
  · intro ids urls now files it hit
    rw [uploadItems_folder ids urls now st.currentFolder files it hit]
    exact hcur
  · intro newId objUrl now originalId name it hit
    rw [handleSaveGenerated_mediaItems_new] at hit
    rcases List.mem_cons.1 hit with hm | hm
    · rw [hm]
      cases hfind : st.mediaItems.find? fun i => i.id = originalId with
      | some o =>
        simp only [hfind]
        exact hitems o (List.mem_of_find?_eq_some hfind)
      | none =>
        simp only [hfind]
        exact hcur
    · exact hitems it hm

/-- C6 witness: the theorem applied to the initial state. -/
theorem every_item_folder_exists_witness :
    initState.currentFolder ∈ initState.folders
    ∧ (∀ it ∈ initState.mediaItems, it.folder ∈ initState.folders)
    ∧ (∀ ids urls now files,
         ∀ it ∈ uploadItems ids urls now initState.currentFolder files,
           it.folder ∈ initState.folders)
    ∧ (∀ newId objUrl now originalId name,
         ∀ it ∈ (handleSaveGenerated true newId objUrl now originalId name
             .new initState).mediaItems,
           it.folder ∈ initState.folders)
    ∧ (∀ st', Step initState st' → ∀ f ∈ initState.folders, f ∈ st'.folders) :=
  every_item_folder_exists initState Reachable.init

/-- C7: `addFolder` appends the trimmed input exactly when it is non-empty
and not already present, and otherwise leaves the folder list unchanged; in
every reachable state the folder list (which starts from the four distinct
defaults) has pairwise-distinct entries, keeps them after `addFolder`, and
no step ever removes one. -/
theorem addFolder_trivial_duplicate_check (st : AppState) (h : Reachable st) :
    (jsTrim st.newFolderInput ≠ "" ∧ jsTrim st.newFolderInput ∉ st.folders →
       (addFolder st).folders = st.folders ++ [jsTrim st.newFolderInput])
    ∧ (¬(jsTrim st.newFolderInput ≠ "" ∧ jsTrim st.newFolderInput ∉ st.folders) →
       (addFolder st).folders = st.folders)
    ∧ st.folders.Nodup
    ∧ (addFolder st).folders.Nodup
    ∧ initState.folders.Nodup
    ∧ (∀ st', Step st st' → ∀ f ∈ st.folders, f ∈ st'.folders) := by
  have hinv := reachable_inv h
  have hstep := step_inv (Step.newFolder st) hinv
  refine ⟨?_, ?_, hinv.1, hstep.1, inv_init.1,
    fun st' hs => step_folders_mono hs⟩
  · intro hc
    rw [addFolder_folders, if_pos hc]
  · intro hc
    rw [addFolder_folders, if_neg hc]

/-- C7 witness: the theorem applied to the initial state. -/
theorem addFolder_trivial_duplicate_check_witness :
    (jsTrim initState.newFolderInput ≠ ""
       ∧ jsTrim initState.newFolderInput ∉ initState.folders →
       (addFolder initState).folders =
         initState.folders ++ [jsTrim initState.newFolderInput])
    ∧ (¬(jsTrim initState.newFolderInput ≠ ""
          ∧ jsTrim initState.newFolderInput ∉ initState.folders) →
       (addFolder initState).folders = initState.folders)
    ∧ initState.folders.Nodup
    ∧ (addFolder initState).folders.Nodup
    ∧ initState.folders.Nodup
    ∧ (∀ st', Step initState st' → ∀ f ∈ initState.folders, f ∈ st'.folders) :=
  addFolder_trivial_duplicate_check initState Reachable.init

theorem typeMatches_iff (tf : TypeFilter) (item : MediaItem) :
    typeMatches tf item = true ↔
      tf = .all ∨ (tf = .image ∧ item.type = .image)
        ∨ (tf = .video ∧ item.type = .video) := by
  cases tf <;> simp [typeMatches]

/-- C8: `filteredItems` contains exactly the items of `mediaItems` whose
folder is the active one, whose type passes the type filter (`all` passes
everything), and whose lower-cased name contains the lower-cased search
query; it is a sublist of `mediaItems`, so the surviving items keep their
relative order; and the empty query leaves only the folder and type
conditions. -/
theorem filteredItems_exactly_matching (st : AppState) :
    (∀ it, it ∈ filteredItems st ↔
       it ∈ st.mediaItems ∧ it.folder = st.currentFolder
       ∧ (st.typeFilter = .all
          ∨ (st.typeFilter = .image ∧ it.type = .image)
          ∨ (st.typeFilter = .video ∧ it.type = .video))
       ∧ jsIncludes (jsToLower it.name) (jsToLower st.searchQuery) = true)
    ∧ List.Sublist (filteredItems st) st.mediaItems
    ∧ (st.searchQuery = "" →
        filteredItems st = st.mediaItems.filter fun item =>
          (item.folder = st.currentFolder : Bool)
            && typeMatches st.typeFilter item) := by
  refine ⟨?_, List.filter_sublist _, ?_⟩
  · intro it
    unfold filteredItems
    rw [List.mem_filter]
    simp only [Bool.and_eq_true, decide_eq_true_eq, typeMatches_iff]
    tauto
  · intro hq
    unfold filteredItems
    apply List.filter_congr
    intro a ha
    rw [hq]
    have hsearch : jsIncludes (jsToLower a.name) (jsToLower "") = true :=
      jsIncludes_empty _
    rw [hsearch, Bool.and_true]

/-- C9: `handleUpdateItem id updates` keeps the length (and positions) of
`mediaItems`; at every position holding an item whose id differs from `id`
the item is unchanged; at a position holding the matching item the result
is the spread `{ ...item, ...updates }`, which keeps every field absent
from `updates`; and when no item has the given id the list is unchanged. -/
theorem handleUpdateItem_frame (id : String) (u : ItemUpdates) (st : AppState) :
    (handleUpdateItem id u st).mediaItems.length = st.mediaItems.length
    ∧ (∀ (k : Nat) (old : MediaItem), st.mediaItems[k]? = some old →
         (old.id ≠ id → (handleUpdateItem id u st).mediaItems[k]? = some old)
         ∧ (old.id = id →
              (handleUpdateItem id u st).mediaItems[k]? =
                some (applyUpdates u old)
              ∧ FrameOk u old (applyUpdates u old)))
    ∧ ((∀ it ∈ st.mediaItems, it.id ≠ id) →
        (handleUpdateItem id u st).mediaItems = st.mediaItems) := by
  refine ⟨handleUpdateItem_length id u st, ?_, ?_⟩
  · intro k old hk
    rw [handleUpdateItem_mediaItems, List.getElem?_map, hk]
    constructor
    · intro hne
      simp only [Option.map_some']
      rw [if_neg hne]
    · intro heq
      refine ⟨?_, applyUpdates_frame u old⟩
      simp only [Option.map_some']
      rw [if_pos heq]
  · intro hall
    rw [handleUpdateItem_mediaItems]
    have h2 : st.mediaItems.map
        (fun item => if item.id = id then applyUpdates u item else item) =
        st.mediaItems.map fun a => a :=
      List.map_congr_left fun a ha => by rw [if_neg (hall a ha)]
    rw [h2, List.map_id']

/-- C10: overwrite-mode `handleSaveGenerated` keeps the length and positions
of `mediaItems` and leaves every item whose id differs from the target
unchanged; the target item keeps its id, type, folder, aiDescription (and
thumbnail), and gets the new url, the new name, the fresh timestamp, the
generated flag set to true, and the saved PNG file. -/
theorem handleSaveGenerated_overwrite_frame (newId objUrl : String)
    (now : Nat) (originalId name : String) (st : AppState) :
    (handleSaveGenerated true newId objUrl now originalId name .overwrite
        st).mediaItems.length = st.mediaItems.length
    ∧ (∀ (k : Nat) (old : MediaItem), st.mediaItems[k]? = some old →
         (old.id ≠ originalId →
            (handleSaveGenerated true newId objUrl now originalId name
                .overwrite st).mediaItems[k]? = some old)
         ∧ (old.id = originalId →
              ∃ nw, (handleSaveGenerated true newId objUrl now originalId name
                  .overwrite st).mediaItems[k]? = some nw
                ∧ nw.id = old.id ∧ nw.type = old.type ∧ nw.folder = old.folder
                ∧ nw.aiDescription = old.aiDescription
                ∧ nw.thumbnailUrl = old.thumbnailUrl
                ∧ nw.url = objUrl ∧ nw.name = name ∧ nw.timestamp = now
                ∧ nw.isGenerated = some true
                ∧ nw.file =
                    ({ name := name ++ ".png", type := "image/png" } : JsFile))) := by
  constructor
  · rw [handleSaveGenerated_mediaItems_overwrite]
    exact List.length_map ..
  · intro k old hk
    rw [handleSaveGenerated_mediaItems_overwrite, List.getElem?_map, hk]
    constructor
    · intro hne
      simp only [Option.map_some']
      rw [if_neg hne]
    · intro heq
      refine ⟨{ old with
                  url := objUrl,
                  file := { name := name ++ ".png", type := "image/png" },
                  name := name, isGenerated := some true,
                  timestamp := now },
        ?_, rfl, rfl, rfl, rfl, rfl, rfl, rfl, rfl, rfl, rfl⟩
      simp only [Option.map_some']
      rw [if_pos heq]
